import Mathlib

/-!
Verification development for the in-memory anime query engine
(`website/src/lib/anime.ts`): record loader, predicate library,
query pipeline (text / numeric / categorical / date filters, multi-key
sort, pagination) and the one-shot `filterAnime` entry point.

JavaScript strings are modelled as Lean `String` (a list of characters),
JavaScript numbers as exact rationals extended with NaN / ±Infinity where
the distinction matters, and `null` as `Option.none`.  Library builtins
used by the source (`String.prototype.trim`, `split`, `includes`,
`Number(...)`, `parseInt`, `Array.prototype.sort`) are modelled
explicitly below.  The MiniSearch-backed fuzzy-search stage is an
external library and is outside this embedding.
-/

/-! ### JavaScript string builtins -/

/-- Whitespace recognised by `String.prototype.trim` (ASCII part plus
NBSP and BOM; the exotic unicode spaces never occur in the data set). -/
def isJsWs (c : Char) : Bool :=
  c = ' ' || c = '\t' || c = '\n' || c = '\r' ||
  c.val = 11 || c.val = 12 || c.val = 160 || c.val = 65279

/-- Model of `String.prototype.trim` on character lists. -/
def jsTrimList (l : List Char) : List Char :=
  ((l.dropWhile isJsWs).reverse.dropWhile isJsWs).reverse

/-- Model of `String.prototype.trim`. -/
def jsTrim (s : String) : String :=
  ⟨jsTrimList s.toList⟩

/-- Model of `String.prototype.split(c)` for a single-character
separator: `"".split(c)` yields `[""]`, and separators at the ends
yield empty segments, exactly as in JavaScript. -/
def splitOnChar (c : Char) : List Char → List (List Char)
  | [] => [[]]
  | x :: xs =>
    if x = c then [] :: splitOnChar c xs
    else
      match splitOnChar c xs with
      | [] => [[x]]
      | g :: gs => (x :: g) :: gs

/-- `s.split(',')` as used throughout the source. -/
def splitComma (s : String) : List String :=
  (splitOnChar ',' s.toList).map fun l => ⟨l⟩

/-- Does `pat` occur at the start of `l`? -/
def listStartsWith : List Char → List Char → Bool
  | _, [] => true
  | [], _ :: _ => false
  | a :: as, b :: bs => a = b && listStartsWith as bs

/-- Does `pat` occur contiguously inside `l`?  (Model of
`String.prototype.includes`; the empty pattern always matches.) -/
def listHasSeg : List Char → List Char → Bool
  | [], pat => pat.isEmpty
  | a :: rest, pat => listStartsWith (a :: rest) pat || listHasSeg rest pat

/-- Model of `s.includes(pat)`. -/
def strIncludes (s pat : String) : Bool :=
  listHasSeg s.toList pat.toList

/-- Model of `String.prototype.replace(/,/g, '')`. -/
def stripCommas (s : String) : String :=
  ⟨s.toList.filter fun c => c ≠ ','⟩

/-- First run of four consecutive ASCII digits in the string, as a
number: model of `s.match(/\d{4}/)` followed by `parseInt`. -/
def find4Digits : List Char → Option Nat
  | a :: b :: c :: d :: rest =>
    if a.isDigit && b.isDigit && c.isDigit && d.isDigit then
      some (((a.toNat - 48) * 10 + (b.toNat - 48)) * 100 + (c.toNat - 48) * 10 + (d.toNat - 48))
    else find4Digits (b :: c :: d :: rest)
  | _ => none

/-- Numeric value of a digit string (most significant digit first). -/
def parseNatDigits (l : List Char) : Nat :=
  l.foldl (fun n c => n * 10 + (c.toNat - 48)) 0

/-- Model of `parseInt(s)` restricted to its leading-decimal-integer
behaviour: trim, optional sign, then leading digits; `none` models the
NaN result when no digits are found. -/
def jsParseInt (s : String) : Option Int :=
  let t := jsTrimList s.toList
  let (sg, rest) : Int × List Char :=
    match t with
    | '+' :: r => (1, r)
    | '-' :: r => (-1, r)
    | r => (1, r)
  let ds := rest.takeWhile Char.isDigit
  if ds = [] then none else some (sg * (parseNatDigits ds : Int))

/-! ### JavaScript numbers and `Number(string)` -/

/-- A JavaScript number as far as the loader can observe it: NaN,
±Infinity, or a finite value (modelled exactly as a rational). -/
inductive JsNum where
  | nan : JsNum
  | inf : JsNum
  | neginf : JsNum
  | fin : ℚ → JsNum
deriving DecidableEq, Repr

/-- Decimal-literal part of `Number(string)`: integer part, optional
fraction, optional exponent.  `none` models NaN. -/
def parseDecCore (l : List Char) : Option ℚ :=
  let ip := l.takeWhile Char.isDigit
  let r1 := l.dropWhile Char.isDigit
  let fr : List Char × List Char :=
    match r1 with
    | '.' :: rest => (rest.takeWhile Char.isDigit, rest.dropWhile Char.isDigit)
    | _ => ([], r1)
  let fp := fr.1
  let r2 := fr.2
  if ip = [] ∧ fp = [] then none
  else
    let mant : ℚ := (parseNatDigits ip : ℚ) + (parseNatDigits fp : ℚ) / ((10 : ℚ) ^ fp.length)
    match r2 with
    | [] => some mant
    | e :: rest =>
      if e = 'e' ∨ e = 'E' then
        let (es, rest2) : Int × List Char :=
          match rest with
          | '+' :: r => (1, r)
          | '-' :: r => (-1, r)
          | r => (1, r)
        let ed := rest2.takeWhile Char.isDigit
        if ed = [] ∨ rest2.dropWhile Char.isDigit ≠ [] then none
        else some (mant * (10 : ℚ) ^ (es * (parseNatDigits ed : Int)))
      else none

/-- Model of the ECMAScript `Number(string)` coercion used by the
loader: trimmed empty string is `0`; signed `Infinity` is ±∞; signed
decimal literals (with fraction and exponent) are finite values; any
other form (including the hex/octal/binary literal forms, which never
occur in the data set) is conservatively NaN. -/
def jsNumber (s : String) : JsNum :=
  let t := jsTrimList s.toList
  match t with
  | [] => .fin 0
  | _ =>
    let (sg, rest) : Int × List Char :=
      match t with
      | '+' :: r => (1, r)
      | '-' :: r => (-1, r)
      | r => (1, r)
    if rest = "Infinity".toList then (if sg = 1 then .inf else .neginf)
    else
      match parseDecCore rest with
      | some q => .fin ((sg : ℚ) * q)
      | none => .nan

/-- A raw field value as it arrives from the parsed JSON data set:
`null` (also modelling an absent key), a JSON number, or a string. -/
inductive RawVal where
  | vnull : RawVal
  | vnum : ℚ → RawVal
  | vstr : String → RawVal
deriving DecidableEq, Repr

/-- The loader's `toNumber`: null/undefined stay null, numbers pass
through, strings are trimmed (empty means null), commas are stripped,
and a NaN parse becomes null. -/
def toNumber (v : RawVal) : Option JsNum :=
  match v with
  | .vnull => none
  | .vnum q => some (.fin q)
  | .vstr s =>
    let t := jsTrim s
    if t = "" then none
    else
      match jsNumber (stripCommas t) with
      | .nan => none
      | n => some n

/-! ### The loader's `cleanCommaSeparatedField` -/

/-- ASCII uppercase, as matched by the source's regex `[A-Z]`. -/
def isUpperAZ (c : Char) : Bool :=
  'A' ≤ c && c ≤ 'Z'

/-- Helper for `capsSplit`: `cur` is the reversed current group. -/
def capsSplitAux : List Char → List Char → List (List Char)
  | cur, [] => [cur.reverse]
  | cur, c :: cs =>
    if isUpperAZ c then cur.reverse :: capsSplitAux [c] cs
    else capsSplitAux (c :: cur) cs

/-- Model of `item.split(/(?=[A-Z])/)`: split before every uppercase
letter except at position 0; the empty string yields `[""]`. -/
def capsSplit : List Char → List (List Char)
  | [] => [[]]
  | c :: cs => capsSplitAux [c] cs

/-- Per-segment self-concatenation cleanup from
`cleanCommaSeparatedField`: collapse an even split into identical
halves, else collapse an even uppercase-boundary word split into
identical halves, else leave the segment alone. -/
def collapseSeg (item : String) : String :=
  let l := item.toList
  let half := l.length / 2
  if 0 < half ∧ l.take half = l.drop half then ⟨l.take half⟩
  else
    let parts := capsSplit l
    if parts.length % 2 = 0 ∧
        (parts.take (parts.length / 2)).flatten = (parts.drop (parts.length / 2)).flatten then
      ⟨(parts.take (parts.length / 2)).flatten⟩
    else item

/-- Order-preserving duplicate-free insertion (model of `Set.add`). -/
def insertUnique (l : List String) (x : String) : List String :=
  if x ∈ l then l else l ++ [x]

/-- Keep-first de-duplication (model of iterating a JS `Set`). -/
def dedupe (l : List String) : List String :=
  l.foldl insertUnique []

/-- The loop body of `cleanCommaSeparatedField`: collapse the segment,
then add it unless it is empty or the literal `"N/A"`. -/
def cleanStep (acc : List String) (item : String) : List String :=
  let c := collapseSeg item
  if c ≠ "" ∧ c ≠ "N/A" then insertUnique acc c else acc

/-- `", ".join` over the collected segments. -/
def joinComma (l : List String) : String :=
  String.intercalate ", " l

/-- The source's `cleanCommaSeparatedField`: early-out on falsy /
all-whitespace / literal `"N/A"` input, then split on commas, trim,
drop empty segments, collapse each segment, drop post-collapse empty
and `"N/A"` segments while de-duplicating, and rejoin with `", "`. -/
def cleanCommaSeparatedField (fieldValue : String) : String :=
  if fieldValue = "" ∨ jsTrim fieldValue = "" ∨ fieldValue = "N/A" then ""
  else
    let items := ((splitComma fieldValue).map jsTrim).filter fun t => decide (t ≠ "")
    joinComma (items.foldl cleanStep [])

/-- The reference algorithm exactly as the claim words it (for the
refinement comparison): split on comma, trim, drop empty segments and
the literal `"N/A"`, collapse each remaining segment, de-duplicate,
rejoin with `", "`.  Note the `"N/A"` drop happens before collapsing
here. -/
def refCleanField (s : String) : String :=
  let segs := ((splitComma s).map jsTrim).filter fun t => decide (t ≠ "" ∧ t ≠ "N/A")
  joinComma (dedupe (segs.map collapseSeg))

/-- The reference algorithm amended to drop empty and `"N/A"` segments
after the collapse step instead of before it. -/
def refCleanFieldAmended (s : String) : String :=
  let segs := ((splitComma s).map jsTrim).filter fun t => decide (t ≠ "")
  joinComma (dedupe ((segs.map collapseSeg).filter fun c => decide (c ≠ "" ∧ c ≠ "N/A")))


/-! ### The record data model -/

/-- One loaded record, with the fields of the source's `Anime`
interface: the five numeric-or-unknown fields are `Option ℚ`
(`none` is the unknown marker, the source's `null`), everything else
is a plain string.  Defaults let sample records name only the fields
they care about. -/
structure Anime where
  Title : String := ""
  Score : Option ℚ := none
  Popularity : Option ℚ := none
  Rank : Option ℚ := none
  Members : Option ℚ := none
  Description : String := ""
  Synonyms : String := ""
  Japanese : String := ""
  English : String := ""
  Type' : String := ""
  Episodes : Option ℚ := none
  Status : String := ""
  Aired : String := ""
  Premiered : String := ""
  Broadcast : String := ""
  Producers : String := ""
  Licensors : String := ""
  Studios : String := ""
  Source : String := ""
  Genres : String := ""
  Demographic : String := ""
  Duration : String := ""
  Rating : String := ""
deriving DecidableEq, Repr

/-- A field name (`keyof Anime` in the source). -/
inductive AnimeField where
  | Title | Score | Popularity | Rank | Members | Description | Synonyms
  | Japanese | English | Type' | Episodes | Status | Aired | Premiered
  | Broadcast | Producers | Licensors | Studios | Source | Genres
  | Demographic | Duration | Rating
deriving DecidableEq, Repr

/-- A dynamically-typed field value, as JavaScript sees `anime[field]`:
a number, a string, or `null`. -/
inductive FieldVal where
  | num : ℚ → FieldVal
  | str : String → FieldVal
  | vnull : FieldVal
deriving DecidableEq, Repr

/-- `anime[field]`. -/
def getField (a : Anime) : AnimeField → FieldVal
  | .Title => .str a.Title
  | .Score => match a.Score with | some q => .num q | none => .vnull
  | .Popularity => match a.Popularity with | some q => .num q | none => .vnull
  | .Rank => match a.Rank with | some q => .num q | none => .vnull
  | .Members => match a.Members with | some q => .num q | none => .vnull
  | .Description => .str a.Description
  | .Synonyms => .str a.Synonyms
  | .Japanese => .str a.Japanese
  | .English => .str a.English
  | .Type' => .str a.Type'
  | .Episodes => match a.Episodes with | some q => .num q | none => .vnull
  | .Status => .str a.Status
  | .Aired => .str a.Aired
  | .Premiered => .str a.Premiered
  | .Broadcast => .str a.Broadcast
  | .Producers => .str a.Producers
  | .Licensors => .str a.Licensors
  | .Studios => .str a.Studios
  | .Source => .str a.Source
  | .Genres => .str a.Genres
  | .Demographic => .str a.Demographic
  | .Duration => .str a.Duration
  | .Rating => .str a.Rating

/-- The five numeric fields the pipeline passes to its numeric
predicate. -/
inductive NumField where
  | Score | Popularity | Rank | Members | Episodes
deriving DecidableEq, Repr

/-- `anime[field] as number | null` at the numeric call sites. -/
def numValue (a : Anime) : NumField → Option ℚ
  | .Score => a.Score
  | .Popularity => a.Popularity
  | .Rank => a.Rank
  | .Members => a.Members
  | .Episodes => a.Episodes

/-- String coercion of a field value.  The numeric branch can only be
reached through a categorical directive aimed at a numeric field, which
no call in the source performs; its exact digit format is irrelevant to
every theorem below. -/
def fvToString : FieldVal → String
  | .str s => s
  | .num q => toString q
  | .vnull => ""

/-- `anime[field]?.toString() || ''` (null coalesces to the empty
string). -/
def fieldToString (a : Anime) (f : AnimeField) : String :=
  fvToString (getField a f)

/-! ### Filter directives -/

/-- Text directive (`TextFilter` in the source); the optional flags
default to false, which matches the undefined-is-falsy use in the
code. -/
structure TextFilter where
  query : String
  exact : Bool := false
  caseSensitive : Bool := false
deriving DecidableEq, Repr

/-- Comparison operators of the source's `NumericFilter`. -/
inductive ComparisonOperator where
  | eq | gt | gte | lt | lte | between
deriving DecidableEq, Repr

/-- A numeric directive: the `min`/`max` range form or the
operator form with optional `secondValue`. -/
inductive NumericDirective where
  | range (min max : Option ℚ)
  | op (operator : ComparisonOperator) (value : ℚ) (secondValue : Option ℚ)
deriving DecidableEq, Repr

/-- A categorical directive: the plain `string[]` shorthand or the
explicit object form with optional `matchAny` flag. -/
inductive CatDirective where
  | list (values : List String)
  | obj (values : List String) (matchAny : Option Bool)
deriving DecidableEq, Repr

/-- The requested values of a categorical directive. -/
def CatDirective.vals : CatDirective → List String
  | .list v => v
  | .obj v _ => v

/-- The effective OR/AND flag: plain arrays mean OR, and an unset
`matchAny` defaults to true (`filter.matchAny ?? true`). -/
def CatDirective.any : CatDirective → Bool
  | .list _ => true
  | .obj _ m => m.getD true

/-- Date-range directive over the free-text `Aired` field. -/
structure DateRangeFilter where
  start : Option String := none
  stop : Option String := none
deriving DecidableEq, Repr

/-- Sort direction. -/
inductive Direction where
  | asc | desc
deriving DecidableEq, Repr

/-- One sort directive. -/
structure SortOption where
  field : AnimeField
  direction : Direction
deriving DecidableEq, Repr

/-- A filter specification (the source's `AnimeFilters`).  The
MiniSearch-backed `search` directive is outside this embedding; every
other directive is present.  `sort` being `[]` covers both an absent
and an empty sort array, which the source treats identically. -/
structure AnimeFilters where
  score : Option NumericDirective := none
  popularity : Option NumericDirective := none
  rank : Option NumericDirective := none
  members : Option NumericDirective := none
  episodes : Option NumericDirective := none
  type' : Option CatDirective := none
  status : Option CatDirective := none
  genres : Option CatDirective := none
  demographic : Option CatDirective := none
  studios : Option CatDirective := none
  producers : Option CatDirective := none
  source : Option CatDirective := none
  rating : Option CatDirective := none
  premiered : Option CatDirective := none
  aired : Option DateRangeFilter := none
  title : Option TextFilter := none
  english : Option TextFilter := none
  japanese : Option TextFilter := none
  description : Option TextFilter := none
  sort : List SortOption := []
  limit : Option Nat := none
  offset : Option Nat := none
deriving DecidableEq, Repr

/-! ### The predicate library -/

/-- Predicate of `applyTextFilter`: exact equality or substring
containment, case-folded unless `caseSensitive`. -/
def textPred (f : AnimeField) (tf : TextFilter) (a : Anime) : Bool :=
  let value := fieldToString a f
  if tf.exact then
    if tf.caseSensitive then value = tf.query
    else value.toLower = tf.query.toLower
  else
    if tf.caseSensitive then strIncludes value tf.query
    else strIncludes value.toLower tf.query.toLower

/-- Predicate of `applyNumericFilter`: unknown never matches; the range
form checks each present bound; the operator form has the standard
semantics with `between` requiring both bounds (else matching
nothing). -/
def numericPred (f : NumField) (nd : NumericDirective) (a : Anime) : Bool :=
  match numValue a f with
  | none => false
  | some v =>
    match nd with
    | .range mn mx =>
      (match mn with | some m => decide (¬ v < m) | none => true) &&
      (match mx with | some m => decide (¬ m < v) | none => true)
    | .op o val sv =>
      match o with
      | .eq => decide (v = val)
      | .gt => decide (val < v)
      | .gte => decide (val ≤ v)
      | .lt => decide (v < val)
      | .lte => decide (v ≤ val)
      | .between =>
        match sv with
        | some s2 => decide (val ≤ v) && decide (v ≤ s2)
        | none => false

/-- Predicate of `applyCategoricalFilter`: case-insensitive containment
of each requested value in the field's full string, combined with OR or
AND per `matchAny`. -/
def catPred (f : AnimeField) (cd : CatDirective) (a : Anime) : Bool :=
  let fieldValue := fieldToString a f
  if cd.any then
    cd.vals.any fun v => strIncludes fieldValue.toLower v.toLower
  else
    cd.vals.all fun v => strIncludes fieldValue.toLower v.toLower

/-- Predicate of `applyMultiValueFilter`: the field is split on commas
and trimmed, then each requested value must match some segment by
case-insensitive containment, combined with OR or AND per
`matchAny`. -/
def multiPred (f : AnimeField) (cd : CatDirective) (a : Anime) : Bool :=
  let fieldItems := (splitComma (fieldToString a f)).map fun it => (jsTrim it).toLower
  if cd.any then
    cd.vals.any fun v => fieldItems.any fun item => strIncludes item v.toLower
  else
    cd.vals.all fun v => fieldItems.any fun item => strIncludes item v.toLower

/-- Predicate of `applyDateFilter`: empty `Aired` never matches; the
first 4-digit run is the year; present bounds are inclusive (a bound
that fails to parse as an integer never excludes, mirroring the NaN
comparison semantics; an empty-string bound is falsy and skipped). -/
def datePred (df : DateRangeFilter) (a : Anime) : Bool :=
  if a.Aired = "" then false
  else
    match find4Digits a.Aired.toList with
    | none => false
    | some year =>
      (match df.start with
       | some st =>
         if st = "" then true
         else match jsParseInt st with
           | some sy => decide (¬ (year : Int) < sy)
           | none => true
       | none => true) &&
      (match df.stop with
       | some en =>
         if en = "" then true
         else match jsParseInt en with
           | some ey => decide (¬ ey < (year : Int))
           | none => true
       | none => true)

/-! ### Sorting

The source sorts with `Array.prototype.sort` and a multi-key comparator.
The comparator is modelled as an exact signed value `cmpOpts` (the code
returns `aVal - bVal` style differences; only the sign is observable),
and the sort itself as a stable sort by the non-strict relation
"comparator ≤ 0", which is what a JavaScript stable sort produces for a
consistent comparator. -/

/-- Signed comparison of two strings, modelling `localeCompare` by the
lexicographic string order. -/
def strOrd (s t : String) : ℚ :=
  if s < t then -1 else if t < s then 1 else 0

/-- The comparator body once both values are non-null: numeric
difference if both are numbers, else string comparison of the string
coercions. -/
def baseCmp : FieldVal → FieldVal → ℚ
  | .num x, .num y => x - y
  | v, w => strOrd (fvToString v) (fvToString w)

/-- Apply the sort direction (`desc` negates). -/
def dirApply (d : Direction) (c : ℚ) : ℚ :=
  match d with
  | .asc => c
  | .desc => -c

/-- One sort directive's contribution: null/null ties (the loop
continues), a single null sorts after defined values when ascending and
before them when descending, and otherwise the directed base
comparison. -/
def cmpKey (so : SortOption) (a b : Anime) : ℚ :=
  match getField a so.field, getField b so.field with
  | .vnull, .vnull => 0
  | .vnull, _ => (match so.direction with | .asc => 1 | .desc => -1)
  | _, .vnull => (match so.direction with | .asc => -1 | .desc => 1)
  | v, w => dirApply so.direction (baseCmp v w)

/-- The full multi-key comparator: first non-zero directive wins. -/
def cmpOpts : List SortOption → Anime → Anime → ℚ
  | [], _, _ => 0
  | so :: rest, a, b =>
    let k := cmpKey so a b
    if k = 0 then cmpOpts rest a b else k

/-- The sort order induced by the comparator. -/
def sortRel (opts : List SortOption) (a b : Anime) : Prop :=
  cmpOpts opts a b ≤ 0

instance (opts : List SortOption) : DecidableRel (sortRel opts) :=
  fun a b => inferInstanceAs (Decidable (cmpOpts opts a b ≤ 0))

/-- `applySorting`: a stable sort of a fresh copy by the comparator. -/
def applySorting (data : List Anime) (sortOptions : List SortOption) : List Anime :=
  List.insertionSort (sortRel sortOptions) data

/-! ### The filter stages and pipeline -/

/-- `applyTextFilter`. -/
def applyTextFilter (data : List Anime) (f : AnimeField) (tf : TextFilter) : List Anime :=
  data.filter (textPred f tf)

/-- `applyNumericFilter`. -/
def applyNumericFilter (data : List Anime) (f : NumField) (nd : NumericDirective) : List Anime :=
  data.filter (numericPred f nd)

/-- `applyCategoricalFilter`. -/
def applyCategoricalFilter (data : List Anime) (f : AnimeField) (cd : CatDirective) : List Anime :=
  data.filter (catPred f cd)

/-- `applyMultiValueFilter`. -/
def applyMultiValueFilter (data : List Anime) (f : AnimeField) (cd : CatDirective) : List Anime :=
  data.filter (multiPred f cd)

/-- `applyDateFilter`. -/
def applyDateFilter (data : List Anime) (df : DateRangeFilter) : List Anime :=
  data.filter (datePred df)

/-- The pagination stage of `filter`: skipped when both directives are
absent; otherwise `slice(offset, limit ? offset + limit : undefined)`,
so a limit of 0 is falsy and behaves like an absent limit. -/
def paginate (l : List Anime) (offset limit : Option Nat) : List Anime :=
  if offset = none ∧ limit = none then l
  else
    let o := offset.getD 0
    match limit with
    | some lim => if lim = 0 then l.drop o else (l.drop o).take lim
    | none => l.drop o

/-- The predicates of the filtering stages before sorting, in the
pipeline order of `AnimeFilterContext.filter`: per-field text filters,
numeric filters, categorical filters, then the date filter.  Each
present directive contributes its stage's predicate. -/
def stagePreds (F : AnimeFilters) : List (Anime → Bool) :=
  (F.title.map (textPred .Title)).toList ++
  (F.english.map (textPred .English)).toList ++
  (F.japanese.map (textPred .Japanese)).toList ++
  (F.description.map (textPred .Description)).toList ++
  (F.score.map (numericPred .Score)).toList ++
  (F.popularity.map (numericPred .Popularity)).toList ++
  (F.rank.map (numericPred .Rank)).toList ++
  (F.members.map (numericPred .Members)).toList ++
  (F.episodes.map (numericPred .Episodes)).toList ++
  (F.type'.map (catPred .Type')).toList ++
  (F.status.map (catPred .Status)).toList ++
  (F.genres.map (multiPred .Genres)).toList ++
  (F.demographic.map (catPred .Demographic)).toList ++
  (F.studios.map (multiPred .Studios)).toList ++
  (F.producers.map (multiPred .Producers)).toList ++
  (F.source.map (catPred .Source)).toList ++
  (F.rating.map (catPred .Rating)).toList ++
  (F.premiered.map (catPred .Premiered)).toList ++
  (F.aired.map datePred).toList

/-- Apply a list of filtering predicates left to right. -/
def applyAll (ps : List (Anime → Bool)) (l : List Anime) : List Anime :=
  ps.foldl (fun acc p => acc.filter p) l

/-- The working collection after every filtering stage and before
sorting. -/
def preSortData (F : AnimeFilters) (data : List Anime) : List Anime :=
  applyAll (stagePreds F) data

/-- The working collection after sorting and before pagination (the
sort stage runs only when sort directives are present). -/
def prePagination (F : AnimeFilters) (data : List Anime) : List Anime :=
  if F.sort = [] then preSortData F data
  else applySorting (preSortData F data) F.sort

/-- `AnimeFilterContext.filter` composed with `getData`: the full
pipeline on a collection (minus the external fuzzy-search stage). -/
def filterRun (data : List Anime) (F : AnimeFilters) : List Anime :=
  paginate (prePagination F data) F.offset F.limit

/-- The one-shot `filterAnime` entry point: null on an empty input
collection, otherwise the pipeline result, with an empty result also
mapped to null. -/
def filterAnime (data : List Anime) (F : AnimeFilters) : Option (List Anime) :=
  if data.length = 0 then none
  else
    let result := filterRun data F
    if result.length > 0 then some result else none

/-! ### Sample records -/

/-- A record with a defined score and two genre tags. -/
def sampleSeven : Anime :=
  { Title := "Seven", Score := some 7, Genres := "Action, Comedy" }

/-- A second record with a defined score. -/
def sampleNine : Anime :=
  { Title := "Nine", Score := some 9, Genres := "Drama" }

/-- A record whose score is the unknown marker. -/
def sampleUnknown : Anime :=
  { Title := "Unknown", Score := none }

/-- A specification no sample record matches (score at least 100). -/
def noMatchFilter : AnimeFilters :=
  { score := some (.range (some 100) none) }

/-- A pagination-only specification (skip one record). -/
def offsetOneFilter : AnimeFilters :=
  { offset := some 1 }

/-- A pagination-free specification with a genre directive and a sort
directive. -/
def genreSortFilter : AnimeFilters :=
  { genres := some (.list ["Action"]), sort := [⟨.Score, .desc⟩] }

/-! ### C10: the one-shot entry point never returns an empty array -/

/-- C10: for every input collection and every filter specification,
`filterAnime` returns either null or a non-empty list of records; it
never returns an empty list. -/
theorem filterAnime_none_or_nonempty (data : List Anime) (F : AnimeFilters) :
    filterAnime data F = none ∨ ∃ a l, filterAnime data F = some (a :: l) := by
  unfold filterAnime
  by_cases h : data.length = 0
  · left
    rw [if_pos h]
  · rw [if_neg h]
    cases hr : filterRun data F with
    | nil => left; simp [hr]
    | cons a l => right; exact ⟨a, l, by simp [hr]⟩

/-! ### C4: unknown numeric values are excluded by every numeric
directive -/

/-- C4: a record whose value for a numeric field is the unknown marker
is excluded from the result of any numeric directive on that field, in
both the range form and the operator form. -/
theorem unknown_excluded_by_numeric (data : List Anime) (f : NumField)
    (nd : NumericDirective) (a : Anime) (h : numValue a f = none) :
    a ∉ applyNumericFilter data f nd := by
  intro hmem
  have hp := List.of_mem_filter hmem
  rw [numericPred, h] at hp
  exact Bool.noConfusion hp

/-- Witness for C4 at a concrete record and directive. -/
theorem unknown_excluded_by_numeric_witness :
    numValue sampleUnknown NumField.Score = none ∧
      sampleUnknown ∉
        applyNumericFilter [sampleUnknown] NumField.Score (NumericDirective.range (some 1) none) :=
  ⟨rfl, unknown_excluded_by_numeric _ _ _ _ rfl⟩

/-! ### C2: empty categorical values -/

/-- C2 counterexample: an empty plain-array categorical directive is
not a no-op — it filters out every record. -/
theorem emptyValues_not_noop :
    applyCategoricalFilter [sampleSeven] AnimeField.Genres (CatDirective.list []) ≠
      [sampleSeven] := by decide

/-- C2 amended: a categorical directive with an empty values array is a
no-op only in the explicit form with `matchAny = false`; in the
plain-array form, or with `matchAny` true or unset, it filters out
every record.  Either way it is non-fatal. -/
theorem emptyValues_behavior (data : List Anime) (f : AnimeField) :
    applyCategoricalFilter data f (.obj [] (some false)) = data ∧
    applyMultiValueFilter data f (.obj [] (some false)) = data ∧
    applyCategoricalFilter data f (.list []) = [] ∧
    applyCategoricalFilter data f (.obj [] none) = [] ∧
    applyCategoricalFilter data f (.obj [] (some true)) = [] ∧
    applyMultiValueFilter data f (.list []) = [] ∧
    applyMultiValueFilter data f (.obj [] none) = [] ∧
    applyMultiValueFilter data f (.obj [] (some true)) = [] := by
  refine ⟨?_, ?_, ?_, ?_, ?_, ?_, ?_, ?_⟩ <;>
    simp [applyCategoricalFilter, applyMultiValueFilter, catPred, multiPred,
      CatDirective.any, CatDirective.vals]

/-! ### C3: pagination -/

/-- C3 counterexample: with a present limit of 0 the pagination stage
returns everything from the offset on, so the claimed length formula
fails. -/
theorem pagination_limit_zero_ce :
    (paginate [sampleSeven] (some 0) (some 0)).length ≠
      min 0 ([sampleSeven].length - 0) := by decide

/-- Pagination with a positive limit takes `limit` records starting at
`offset`. -/
theorem paginate_pos_limit (l : List Anime) (oo : Option Nat) (lim : Nat) (h : 1 ≤ lim) :
    (paginate l oo (some lim)).length = min lim (l.length - oo.getD 0) := by
  unfold paginate
  rw [if_neg (by simp)]
  have hz : ¬ lim = 0 := by omega
  simp [hz]

/-- Pagination with no limit drops `offset` records. -/
theorem paginate_no_limit (l : List Anime) (oo : Option Nat) :
    paginate l oo none = l.drop (oo.getD 0) := by
  cases oo with
  | none => simp [paginate]
  | some o => rw [paginate, if_neg (by simp)]

/-- C3 amended: the pagination stage acts on the records surviving the
earlier stages; with a positive limit the result length is
`min limit (max 0 (totalMatches - offset))`; with the limit absent it
returns from the offset to the end; with neither directive present it
returns everything; a limit of 0 behaves like an absent limit. -/
theorem filterRun_pagination (data : List Anime) (F : AnimeFilters) :
    (∀ lim, F.limit = some lim → 1 ≤ lim →
      (filterRun data F).length = min lim ((prePagination F data).length - F.offset.getD 0)) ∧
    (F.limit = none →
      filterRun data F = (prePagination F data).drop (F.offset.getD 0)) ∧
    (F.limit = none → F.offset = none → filterRun data F = prePagination F data) ∧
    (F.limit = some 0 →
      filterRun data F = (prePagination F data).drop (F.offset.getD 0)) := by
  refine ⟨?_, ?_, ?_, ?_⟩
  · intro lim hl h1
    unfold filterRun
    rw [hl]
    exact paginate_pos_limit _ _ _ h1
  · intro hl
    unfold filterRun
    rw [hl]
    exact paginate_no_limit _ _
  · intro hl ho
    unfold filterRun
    rw [hl, ho, paginate_no_limit]
    simp
  · intro hl
    unfold filterRun
    rw [hl, paginate, if_neg (by simp)]
    simp

/-- Witness for C3 at concrete collections and specifications covering
each clause. -/
theorem filterRun_pagination_witness :
    (filterRun [sampleSeven, sampleNine] { offset := some 1, limit := some 1 }).length =
      min 1 ((prePagination { offset := some 1, limit := some 1 } [sampleSeven, sampleNine]).length -
        ((some 1 : Option Nat).getD 0)) ∧
    filterRun [sampleSeven, sampleNine] offsetOneFilter =
      (prePagination offsetOneFilter [sampleSeven, sampleNine]).drop
        (offsetOneFilter.offset.getD 0) ∧
    filterRun [sampleSeven, sampleNine] {} = prePagination {} [sampleSeven, sampleNine] :=
  ⟨(filterRun_pagination _ _).1 1 rfl (le_refl 1),
   (filterRun_pagination _ _).2.1 rfl,
   (filterRun_pagination _ _).2.2.1 rfl rfl⟩

/-! ### C5: the sorting example -/

/-- C5 counterexample: sorting the three example records by Score
descending does not put the unknown record last. -/
theorem sort_desc_example_ce :
    (applySorting [sampleSeven, sampleUnknown, sampleNine]
        [⟨AnimeField.Score, Direction.desc⟩]).map Anime.Score ≠
      [some 9, some 7, none] := by decide

/-- C5 amended: ascending by Score yields `[7, 9, unknown]`, and
descending yields `[unknown, 9, 7]` — a record with an unknown sort
value sorts after all defined values when ascending and before them
when descending. -/
theorem sort_example_amended :
    (applySorting [sampleSeven, sampleUnknown, sampleNine]
        [⟨AnimeField.Score, Direction.asc⟩]).map Anime.Score = [some 7, some 9, none] ∧
    (applySorting [sampleSeven, sampleUnknown, sampleNine]
        [⟨AnimeField.Score, Direction.desc⟩]).map Anime.Score = [none, some 9, some 7] := by
  constructor <;>
    norm_num [applySorting, List.insertionSort, List.orderedInsert, sortRel, cmpOpts, cmpKey,
      getField, sampleSeven, sampleUnknown, sampleNine, dirApply, baseCmp]

/-! ### C7: the loader's numeric coercion -/

/-- C7 counterexample: the input string `"Infinity"` parses to a
non-finite number, and the loader stores it instead of the unknown
marker (the guard checks only for NaN, not finiteness). -/
theorem toNumber_infinity_ce :
    jsNumber "Infinity" = JsNum.inf ∧
      toNumber (RawVal.vstr "Infinity") = some JsNum.inf := by decide

/-- C7 amended: for every raw value the loader strips comma separators
and parses; a NaN parse is stored as the unknown marker, so a loaded
numeric field is null, a finite number, or ±Infinity — never NaN and
never a non-numeric string; Infinity results are stored as-is. -/
theorem toNumber_never_nan (v : RawVal) :
    toNumber v = none ∨ (∃ q, toNumber v = some (JsNum.fin q)) ∨
      toNumber v = some JsNum.inf ∨ toNumber v = some JsNum.neginf := by
  rcases v with _ | q | s
  · left; rfl
  · right; left; exact ⟨q, rfl⟩
  · unfold toNumber
    dsimp only
    by_cases h : jsTrim s = ""
    · left; rw [if_pos h]
    · rw [if_neg h]
      cases hn : jsNumber (stripCommas (jsTrim s)) with
      | nan => left; rfl
      | inf => right; right; left; rfl
      | neginf => right; right; right; rfl
      | fin q => right; left; exact ⟨q, rfl⟩

/-! ### C1: no data versus no match at the one-shot entry point -/

/-- C1 counterexample: querying the empty collection and querying a
non-empty collection with a well-formed specification that matches
nothing both return null through `filterAnime` — the two cases are not
distinguishable there. -/
theorem filterAnime_no_data_ce :
    filterAnime ([] : List Anime) noMatchFilter = none ∧
      filterAnime [sampleSeven] noMatchFilter = none := by decide

/-- C1 amended: `filterAnime` returns null on an empty working
collection, and it also returns null whenever the pipeline result is
empty, so a zero-match query is not distinguishable from the no-data
case at this entry point. -/
theorem filterAnime_null_cases (data : List Anime) (F : AnimeFilters) :
    (data = [] → filterAnime data F = none) ∧
    (filterRun data F = [] → filterAnime data F = none) := by
  constructor
  · rintro rfl
    rfl
  · intro h
    unfold filterAnime
    by_cases hd : data.length = 0
    · rw [if_pos hd]
    · rw [if_neg hd]
      simp [h]

/-- Witness for C1 at concrete inputs. -/
theorem filterAnime_null_cases_witness :
    filterAnime ([] : List Anime) noMatchFilter = none ∧
      filterAnime [sampleUnknown] noMatchFilter = none :=
  ⟨(filterAnime_null_cases [] noMatchFilter).1 rfl,
   (filterAnime_null_cases [sampleUnknown] noMatchFilter).2 (by decide)⟩

/-! ### C8: the comma-field cleanup against its reference algorithm -/

/-- An element not satisfying the predicate survives `dropWhile`. -/
theorem mem_dropWhile_of_neg {p : Char → Bool} {a : Char} :
    ∀ {l : List Char}, a ∈ l → p a = false → a ∈ l.dropWhile p := by
  intro l h hp
  induction l with
  | nil => cases h
  | cons x xs ih =>
    by_cases hx : p x = true
    · have hxs : a ∈ xs := by
        rcases List.mem_cons.mp h with rfl | h2
        · rw [hp] at hx; cases hx
        · exact h2
      rw [List.dropWhile_cons, if_pos hx]
      exact ih hxs
    · rw [List.dropWhile_cons, if_neg hx]
      exact h

/-- A string whose trim is empty contains no comma. -/
theorem trim_empty_no_comma {l : List Char} (h : jsTrimList l = []) : ',' ∉ l := by
  intro hm
  have h1 : ',' ∈ l.dropWhile isJsWs := mem_dropWhile_of_neg hm (by decide)
  have h2 : ',' ∈ (l.dropWhile isJsWs).reverse.dropWhile isJsWs :=
    mem_dropWhile_of_neg (List.mem_reverse.mpr h1) (by decide)
  have h3 : ',' ∈ jsTrimList l := by
    unfold jsTrimList
    exact List.mem_reverse.mpr h2
  rw [h] at h3
  exact (List.not_mem_nil _) h3

/-- Splitting on an absent separator yields the whole list. -/
theorem splitOnChar_no_sep {c : Char} :
    ∀ {l : List Char}, c ∉ l → splitOnChar c l = [l] := by
  intro l h
  induction l with
  | nil => rfl
  | cons x xs ih =>
    have hx : ¬ x = c := fun he => h (he ▸ List.mem_cons_self x xs)
    have hxs : c ∉ xs := fun hc => h (List.mem_cons_of_mem _ hc)
    rw [splitOnChar, if_neg hx, ih hxs]

/-- If the whole input trims to empty, the trimmed comma segments are
all empty. -/
theorem segments_of_trim_empty {s : String} (h : jsTrim s = "") :
    ((splitComma s).map jsTrim).filter (fun t => decide (t ≠ "")) = [] := by
  have hl : jsTrimList s.toList = [] := congrArg String.data h
  have hnc : ',' ∉ s.toList := trim_empty_no_comma hl
  unfold splitComma
  rw [splitOnChar_no_sep hnc]
  simp only [List.map_cons, List.map_nil, List.filter]
  have : jsTrim ⟨s.toList⟩ = jsTrim s := rfl
  rw [this, h]
  rfl

/-- The cleanup loop is the filtered, collapsed, de-duplicating fold of
the reference algorithm. -/
theorem foldl_cleanStep (items : List String) (acc : List String) :
    items.foldl cleanStep acc =
      ((items.map collapseSeg).filter fun c => decide (c ≠ "" ∧ c ≠ "N/A")).foldl
        insertUnique acc := by
  induction items generalizing acc with
  | nil => rfl
  | cons it rest ih =>
    simp only [List.foldl_cons, List.map_cons, List.filter_cons]
    by_cases h : collapseSeg it ≠ "" ∧ collapseSeg it ≠ "N/A"
    · have hd : (decide (collapseSeg it ≠ "" ∧ collapseSeg it ≠ "N/A")) = true :=
        decide_eq_true h
      rw [cleanStep, if_pos h, hd, if_pos rfl, List.foldl_cons]
      exact ih _
    · have hd : (decide (collapseSeg it ≠ "" ∧ collapseSeg it ≠ "N/A")) = false :=
        decide_eq_false h
      rw [cleanStep, if_neg h, hd, if_neg (by simp)]
      exact ih _

/-- C8 counterexample: on the input `"N/AN/A"` the source collapses the
segment to `"N/A"` and then drops it, while the claim's reference
algorithm (which drops `"N/A"` before collapsing) keeps it. -/
theorem cleanField_ref_ce :
    cleanCommaSeparatedField "N/AN/A" ≠ refCleanField "N/AN/A" := by decide

/-- C8 amended: `cleanCommaSeparatedField` equals the reference
algorithm with the `"N/A"` (and empty) drop applied after the
per-segment collapse step instead of before it; in particular the
Genres value `"ActionAction,Comedy"` cleans to `"Action, Comedy"`. -/
theorem cleanField_eq_refAmended :
    (∀ s : String, cleanCommaSeparatedField s = refCleanFieldAmended s) ∧
    cleanCommaSeparatedField "ActionAction,Comedy" = "Action, Comedy" := by
  constructor
  · intro s
    unfold cleanCommaSeparatedField refCleanFieldAmended
    by_cases h0 : s = "" ∨ jsTrim s = "" ∨ s = "N/A"
    · rw [if_pos h0]
      dsimp only
      rcases h0 with rfl | h | rfl
      · decide
      · rw [segments_of_trim_empty h]
        rfl
      · decide
    · rw [if_neg h0]
      dsimp only
      rw [foldl_cleanStep]
      rfl
  · decide

/-! ### C6: idempotence of the pipeline

The sort comparator induces a total preorder on records: per sort
directive the compared field values are homogeneous (a numeric field
yields numbers or null on every record, a string field always yields a
string), which makes the comparator's sign transitive. -/

/-- The string comparison is antisymmetric in sign. -/
theorem strOrd_antisymm (s t : String) : strOrd s t = -strOrd t s := by
  by_cases h1 : s < t
  · have h2 : ¬ t < s := lt_asymm h1
    simp [strOrd, h1, h2]
  · by_cases h2 : t < s
    · simp [strOrd, h1, h2]
    · simp [strOrd, h1, h2]

/-- Non-positive string comparison means order. -/
theorem strOrd_nonpos (s t : String) : strOrd s t ≤ 0 ↔ s ≤ t := by
  unfold strOrd
  by_cases h1 : s < t
  · simp [h1, le_of_lt h1]
  · by_cases h2 : t < s
    · rw [if_neg h1, if_pos h2]
      constructor
      · intro h; linarith
      · intro h; exact absurd h (not_le.mpr h2)
    · have he : s = t := le_antisymm (not_lt.mp h2) (not_lt.mp h1)
      rw [if_neg h1, if_neg h2]
      simp [he]

/-- Non-negative string comparison means reverse order. -/
theorem strOrd_nonneg (s t : String) : 0 ≤ strOrd s t ↔ t ≤ s := by
  rw [strOrd_antisymm s t, neg_nonneg, strOrd_nonpos]

/-- Zero string comparison means equality. -/
theorem strOrd_eq_zero (s t : String) : strOrd s t = 0 ↔ s = t := by
  unfold strOrd
  by_cases h1 : s < t
  · rw [if_pos h1]
    constructor
    · intro h; norm_num at h
    · intro h; exact absurd h (ne_of_lt h1)
  · by_cases h2 : t < s
    · rw [if_neg h1, if_pos h2]
      constructor
      · intro h; norm_num at h
      · intro h; exact absurd h.symm (ne_of_lt h2)
    · have he : s = t := le_antisymm (not_lt.mp h2) (not_lt.mp h1)
      rw [if_neg h1, if_neg h2]
      simp [he]

/-- One directive's comparison is antisymmetric in sign. -/
theorem cmpKey_antisymm (so : SortOption) (a b : Anime) :
    cmpKey so a b = -cmpKey so b a := by
  unfold cmpKey
  rcases ha : getField a so.field with x | s | _ <;>
    rcases hb : getField b so.field with y | t | _ <;>
    cases hd : so.direction <;>
    simp only [baseCmp, dirApply, fvToString] <;>
    (first | ring1 | (rw [strOrd_antisymm]; try ring1))

/-- Every field is numeric-or-null on all records, or a string on all
records. -/
theorem field_class (f : AnimeField) :
    (∀ a : Anime, (∃ q, getField a f = .num q) ∨ getField a f = .vnull) ∨
    (∀ a : Anime, ∃ s, getField a f = .str s) := by
  cases f
  case Score =>
    left; intro a
    cases h : a.Score with
    | none => right; simp [getField, h]
    | some q => left; exact ⟨q, by simp [getField, h]⟩
  case Popularity =>
    left; intro a
    cases h : a.Popularity with
    | none => right; simp [getField, h]
    | some q => left; exact ⟨q, by simp [getField, h]⟩
  case Rank =>
    left; intro a
    cases h : a.Rank with
    | none => right; simp [getField, h]
    | some q => left; exact ⟨q, by simp [getField, h]⟩
  case Members =>
    left; intro a
    cases h : a.Members with
    | none => right; simp [getField, h]
    | some q => left; exact ⟨q, by simp [getField, h]⟩
  case Episodes =>
    left; intro a
    cases h : a.Episodes with
    | none => right; simp [getField, h]
    | some q => left; exact ⟨q, by simp [getField, h]⟩
  all_goals (right; intro a; exact ⟨_, rfl⟩)

/-- Transitivity of one directive's non-positive comparison. -/
theorem cmpKey_trans_le (so : SortOption) (a b c : Anime)
    (h1 : cmpKey so a b ≤ 0) (h2 : cmpKey so b c ≤ 0) : cmpKey so a c ≤ 0 := by
  rcases field_class so.field with hn | hs
  · rcases hn a with ⟨x, hx⟩ | hx <;> rcases hn b with ⟨y, hy⟩ | hy <;>
      rcases hn c with ⟨z, hz⟩ | hz <;>
      cases hd : so.direction <;>
      rw [cmpKey, hx, hy, hd] at h1 <;>
      rw [cmpKey, hy, hz, hd] at h2 <;>
      rw [cmpKey, hx, hz, hd] <;>
      simp only [baseCmp, dirApply] at * <;>
      linarith
  · obtain ⟨sa, ha⟩ := hs a
    obtain ⟨sb, hb⟩ := hs b
    obtain ⟨sc, hc⟩ := hs c
    cases hd : so.direction <;>
      rw [cmpKey, ha, hb, hd] at h1 <;>
      rw [cmpKey, hb, hc, hd] at h2 <;>
      rw [cmpKey, ha, hc, hd] <;>
      simp only [baseCmp, dirApply, fvToString] at *
    · rw [strOrd_nonpos] at h1 h2 ⊢
      exact le_trans h1 h2
    · rw [neg_nonpos] at h1 h2 ⊢
      rw [strOrd_nonneg] at h1 h2 ⊢
      exact le_trans h2 h1

/-- Ties of one directive's comparison are transitive. -/
theorem cmpKey_trans_eq (so : SortOption) (a b c : Anime)
    (h1 : cmpKey so a b = 0) (h2 : cmpKey so b c = 0) : cmpKey so a c = 0 := by
  rcases field_class so.field with hn | hs
  · rcases hn a with ⟨x, hx⟩ | hx <;> rcases hn b with ⟨y, hy⟩ | hy <;>
      rcases hn c with ⟨z, hz⟩ | hz <;>
      cases hd : so.direction <;>
      rw [cmpKey, hx, hy, hd] at h1 <;>
      rw [cmpKey, hy, hz, hd] at h2 <;>
      rw [cmpKey, hx, hz, hd] <;>
      simp only [baseCmp, dirApply] at * <;>
      linarith
  · obtain ⟨sa, ha⟩ := hs a
    obtain ⟨sb, hb⟩ := hs b
    obtain ⟨sc, hc⟩ := hs c
    cases hd : so.direction <;>
      rw [cmpKey, ha, hb, hd] at h1 <;>
      rw [cmpKey, hb, hc, hd] at h2 <;>
      rw [cmpKey, ha, hc, hd] <;>
      simp only [baseCmp, dirApply, fvToString, neg_eq_zero] at * <;>
      rw [strOrd_eq_zero] at h1 h2 ⊢ <;>
      exact h1.trans h2

/-- The multi-key comparator is antisymmetric in sign. -/
theorem cmpOpts_antisymm (opts : List SortOption) (a b : Anime) :
    cmpOpts opts a b = -cmpOpts opts b a := by
  induction opts with
  | nil => simp [cmpOpts]
  | cons so rest ih =>
    simp only [cmpOpts]
    by_cases h : cmpKey so a b = 0
    · have h2 : cmpKey so b a = 0 := by
        simp [cmpKey_antisymm so b a, h]
      rw [if_pos h, if_pos h2]
      exact ih
    · have h2 : ¬ cmpKey so b a = 0 := by
        intro h0
        apply h
        simp [cmpKey_antisymm so a b, h0]
      rw [if_neg h, if_neg h2]
      exact cmpKey_antisymm so a b

/-- The multi-key comparator's non-positive part is transitive. -/
theorem cmpOpts_trans (opts : List SortOption) (a b c : Anime)
    (h1 : cmpOpts opts a b ≤ 0) (h2 : cmpOpts opts b c ≤ 0) :
    cmpOpts opts a c ≤ 0 := by
  induction opts with
  | nil => simp [cmpOpts]
  | cons so rest ih =>
    simp only [cmpOpts] at h1 h2 ⊢
    by_cases e1 : cmpKey so a b = 0 <;> by_cases e2 : cmpKey so b c = 0
    · have e3 : cmpKey so a c = 0 := cmpKey_trans_eq so a b c e1 e2
      rw [if_pos e1] at h1
      rw [if_pos e2] at h2
      rw [if_pos e3]
      exact ih h1 h2
    · rw [if_pos e1] at h1
      rw [if_neg e2] at h2
      have hk2 : cmpKey so b c < 0 := lt_of_le_of_ne h2 e2
      have hac : cmpKey so a c ≤ 0 :=
        cmpKey_trans_le so a b c (le_of_eq e1) (le_of_lt hk2)
      have hne : cmpKey so a c ≠ 0 := by
        intro h0
        have hca : cmpKey so c a = 0 := by
          simp [cmpKey_antisymm so c a, h0]
        have hcb : cmpKey so c b ≤ 0 :=
          cmpKey_trans_le so c a b (le_of_eq hca) (le_of_eq e1)
        rw [cmpKey_antisymm so c b] at hcb
        linarith
      rw [if_neg hne]
      exact hac
    · rw [if_neg e1] at h1
      rw [if_pos e2] at h2
      have hk1 : cmpKey so a b < 0 := lt_of_le_of_ne h1 e1
      have hac : cmpKey so a c ≤ 0 :=
        cmpKey_trans_le so a b c (le_of_lt hk1) (le_of_eq e2)
      have hne : cmpKey so a c ≠ 0 := by
        intro h0
        have hca : cmpKey so c a = 0 := by
          simp [cmpKey_antisymm so c a, h0]
        have hba : cmpKey so b a ≤ 0 :=
          cmpKey_trans_le so b c a (le_of_eq e2) (le_of_eq hca)
        rw [cmpKey_antisymm so b a] at hba
        linarith
      rw [if_neg hne]
      exact hac
    · rw [if_neg e1] at h1
      rw [if_neg e2] at h2
      have hk1 : cmpKey so a b < 0 := lt_of_le_of_ne h1 e1
      have hk2 : cmpKey so b c < 0 := lt_of_le_of_ne h2 e2
      have hac : cmpKey so a c ≤ 0 :=
        cmpKey_trans_le so a b c (le_of_lt hk1) (le_of_lt hk2)
      have hne : cmpKey so a c ≠ 0 := by
        intro h0
        have hca : cmpKey so c a = 0 := by
          simp [cmpKey_antisymm so c a, h0]
        have hcb : cmpKey so c b ≤ 0 :=
          cmpKey_trans_le so c a b (le_of_eq hca) (le_of_lt hk1)
        rw [cmpKey_antisymm so c b] at hcb
        linarith
      rw [if_neg hne]
      exact hac

/-- The sort order is total. -/
theorem sortRel_total (opts : List SortOption) : IsTotal Anime (sortRel opts) := by
  constructor
  intro a b
  unfold sortRel
  rcases le_or_lt (cmpOpts opts a b) 0 with h | h
  · exact Or.inl h
  · right
    rw [cmpOpts_antisymm opts b a]
    linarith

/-- The sort order is transitive. -/
theorem sortRel_trans (opts : List SortOption) : IsTrans Anime (sortRel opts) :=
  ⟨fun a b c h1 h2 => cmpOpts_trans opts a b c h1 h2⟩

/-- Sorting an already-sorted collection changes nothing. -/
theorem applySorting_twice (l : List Anime) (opts : List SortOption) :
    applySorting (applySorting l opts) opts = applySorting l opts := by
  haveI := sortRel_total opts
  haveI := sortRel_trans opts
  exact List.Sorted.insertionSort_eq (List.sorted_insertionSort _ l)

/-- Members of a filtered fold are members of the input satisfying
every predicate. -/
theorem mem_applyAll {ps : List (Anime → Bool)} {l : List Anime} {a : Anime}
    (h : a ∈ applyAll ps l) : a ∈ l ∧ ∀ p ∈ ps, p a = true := by
  induction ps generalizing l with
  | nil => exact ⟨h, by simp⟩
  | cons p ps ih =>
    have h2 : a ∈ applyAll ps (l.filter p) := h
    obtain ⟨hmem, hall⟩ := ih h2
    have h3 := List.mem_filter.mp hmem
    refine ⟨h3.1, ?_⟩
    intro q hq
    rcases List.mem_cons.mp hq with rfl | hq2
    · exact h3.2
    · exact hall q hq2

/-- Filtering keeps a collection whose members already satisfy every
predicate. -/
theorem applyAll_eq_self {ps : List (Anime → Bool)} {l : List Anime}
    (h : ∀ a ∈ l, ∀ p ∈ ps, p a = true) : applyAll ps l = l := by
  induction ps generalizing l with
  | nil => rfl
  | cons p ps ih =>
    have h1 : l.filter p = l :=
      List.filter_eq_self.mpr fun a ha => h a ha p (List.mem_cons_self _ _)
    show applyAll ps (l.filter p) = l
    rw [h1]
    exact ih fun a ha q hq => h a ha q (List.mem_cons_of_mem _ hq)

/-- The pre-pagination stage without sort directives. -/
theorem prePag_plain (F : AnimeFilters) (hs : F.sort = []) (l : List Anime) :
    prePagination F l = preSortData F l := by
  unfold prePagination
  rw [if_pos hs]

/-- The pre-pagination stage with sort directives. -/
theorem prePag_sorted (F : AnimeFilters) (hs : ¬ F.sort = []) (l : List Anime) :
    prePagination F l = applySorting (preSortData F l) F.sort := by
  unfold prePagination
  rw [if_neg hs]

/-- Sorting permutes, so pre-pagination members come from the filtering
stages. -/
theorem mem_prePag {F : AnimeFilters} {l : List Anime} {a : Anime}
    (h : a ∈ prePagination F l) : a ∈ preSortData F l := by
  by_cases hs : F.sort = []
  · rwa [prePag_plain F hs] at h
  · rw [prePag_sorted F hs] at h
    unfold applySorting at h
    exact (List.mem_insertionSort (sortRel F.sort)).mp h

/-- C6 counterexample: with a pagination directive the pipeline is not
idempotent — re-filtering the one-record result of an offset-1 query
drops that record too. -/
theorem filterRun_not_idempotent_ce :
    filterRun (filterRun [sampleSeven, sampleNine] offsetOneFilter) offsetOneFilter ≠
      filterRun [sampleSeven, sampleNine] offsetOneFilter := by decide

/-- C6 amended: for every collection and every filter specification
without pagination directives (offset and limit both absent; the
fuzzy-search stage is outside the model), filtering an
already-filtered result with the same specification again yields an
identical collection. -/
theorem filterRun_idempotent (data : List Anime) (F : AnimeFilters)
    (hO : F.offset = none) (hL : F.limit = none) :
    filterRun (filterRun data F) F = filterRun data F := by
  have hpag : ∀ l, paginate l F.offset F.limit = l := by
    intro l
    unfold paginate
    rw [if_pos ⟨hO, hL⟩]
  unfold filterRun
  simp only [hpag]
  have hmem : ∀ a ∈ prePagination F data, ∀ p ∈ stagePreds F, p a = true :=
    fun a ha p hp => (mem_applyAll (mem_prePag ha)).2 p hp
  have hpre : preSortData F (prePagination F data) = prePagination F data :=
    applyAll_eq_self hmem
  by_cases hs : F.sort = []
  · rw [prePag_plain F hs (prePagination F data), hpre]
  · rw [prePag_sorted F hs (prePagination F data), hpre,
      prePag_sorted F hs data, applySorting_twice]

/-- Witness for C6 at a concrete collection and a pagination-free
specification with genre and sort directives. -/
theorem filterRun_idempotent_witness :
    filterRun (filterRun [sampleSeven, sampleNine] genreSortFilter) genreSortFilter =
      filterRun [sampleSeven, sampleNine] genreSortFilter :=
  filterRun_idempotent [sampleSeven, sampleNine] genreSortFilter rfl rfl
